import Mathlib

/-!
Verification of `attendance_transfer.py` (huoston/attendance-transfer).

The script reconciles a Microsoft-Forms export with an attendance roster
template: it computes an attendance code and minutes-present for each
responding student from the submission timestamp, writes them into the
roster's per-date columns, marks non-responders absent, and emits only the
changed cells into a style-preserving copy of the template.

Shallow embedding conventions:
* Spreadsheet cells are `Cell` (`na` for NaN/empty, `s` for text, `n` for
  numbers; the script only ever reads integers and writes Python ints, so
  numbers are modelled as `Int`).
* A table is a list of rows (`List (List Cell)`); pandas tables are
  rectangular, so out-of-range reads only occur where the model makes them
  return `none`.
* Timestamps: `calculate_attendance` builds the class start from the
  completion timestamp's own date, so only the time of day matters; it is
  modelled as seconds since midnight (`Nat`).  Sub-minute truncation done in
  the source with `int((t - start).total_seconds() / 60)` is modelled by
  `Nat` division by 60 (exact for second-resolution timestamps).
* String primitives of Python (`split`, `strip`, `isdigit`, `int(...)`,
  `str(...)`) are modelled character-wise over `String.data` so that all
  definitions reduce in the kernel; Python's Unicode extras (non-ASCII
  digits and whitespace) are outside every claim's inputs.
* Code that raises is modelled with `Option`/`Except` (`none`/`.error`
  standing for a raised exception that aborts the run).
-/

namespace AttendanceTransfer

/-- A spreadsheet cell: NaN/empty, a string, or a number (Python ints and
the integral floats the script reads are modelled as `Int`). -/
inductive Cell where
  | na : Cell
  | s : String → Cell
  | n : Int → Cell
deriving DecidableEq, Repr

/-- A spreadsheet table: a list of rows of cells (row 0 first). -/
abbrev Table := List (List Cell)

/-- A normalized form submission: `student_id`, `date`, `Completion time`
columns of the dataframe built by `read_forms_data`.  The completion
timestamp is its time of day in seconds since midnight. -/
structure FormRecord where
  studentId : String
  date : String
  completion : Nat
deriving DecidableEq, Repr

/-- A raw row of the Microsoft-Forms file before normalization: the `Email`
cell (absent/NaN modelled as `none`), the date components of `Start time`,
and the `Completion time` time of day in seconds. -/
structure RawFormRow where
  email : Option String
  startDay : Nat
  startMonth : Nat
  completion : Nat
deriving DecidableEq, Repr

/-- The `date_columns` dictionary built by `read_template_file`: date label
to (code column, minutes column).  A Python dict is modelled as an
association list with unique keys; insertion updates in place. -/
abbrev DCMap := List (String × Nat × Nat)

/- ---------------------------------------------------------------------
Python string primitives, modelled character-wise.
--------------------------------------------------------------------- -/

/-- Python `email.split('@')[0]`: everything before the first `'@'`
(the whole string when there is none). -/
def localPart (e : String) : String :=
  ⟨e.data.takeWhile (fun c => c ≠ '@')⟩

/-- Python `str.strip()`: drop whitespace from both ends. -/
def pyStrip (s : String) : String :=
  ⟨((s.data.dropWhile Char.isWhitespace).reverse.dropWhile Char.isWhitespace).reverse⟩

/-- Python `s.isdigit()`: non-empty and all digits (ASCII inputs). -/
def pyIsDigit (s : String) : Bool :=
  !s.data.isEmpty && s.data.all Char.isDigit

/-- Python `email_prefix.upper().startswith('S')`: the first character,
uppercased, is `'S'`. -/
def upperStartsWithS (s : String) : Bool :=
  match s.data with
  | [] => false
  | c :: _ => c.toUpper == 'S'

/-- The prefix-stripping step of `extract_student_id`: drop one leading
`'S'`/`'s'` when present (source lines 107-110). -/
def stripLeadingS (s : String) : String :=
  if upperStartsWithS s then ⟨s.data.drop 1⟩ else s

/-- Numeric value of an ASCII digit character. -/
def digitVal (c : Char) : Nat := c.toNat - 48

/-- Python `int(s)` restricted to the all-digit strings that reach it in
this script (start-time components validated by the CLI regex, student ids
produced by `extract_student_id`): `some` of the decimal value, `none` when
the characters are not a non-empty digit run (where `int` would raise). -/
def digitsToNat? (l : List Char) : Option Nat :=
  if l ≠ [] ∧ l.all Char.isDigit then
    some (l.foldl (fun a c => a * 10 + digitVal c) 0)
  else none

/-- Python `s.split(':')` on a character list. -/
def splitOnCharList (c : Char) : List Char → List (List Char)
  | [] => [[]]
  | x :: xs =>
    match splitOnCharList c xs with
    | [] => [[]]
    | g :: gs => if x = c then [] :: g :: gs else (x :: g) :: gs

/-- Test for `'/' in date_val` (source line 313). -/
def containsSlash (s : String) : Bool := s.data.any (fun c => c == '/')

/- ---------------------------------------------------------------------
extract_student_id (source lines 79-121).
--------------------------------------------------------------------- -/

/-- `extract_student_id(email)`: `None` input (pandas NaN / non-string)
gives `None`; otherwise take the part before `'@'`, strip whitespace, drop
one leading case-insensitive `'S'`, and return it when it is all-digit. -/
def extract_student_id (email : Option String) : Option String :=
  match email with
  | none => none
  | some e =>
    let emailLocal := pyStrip (localPart e)
    let sid := stripLeadingS emailLocal
    if pyIsDigit sid then some sid else none

/-- Modelled from the spec (section 4.1 words, for comparison with the
source): drop everything from `'@'` onward, strip a single leading
case-insensitive `'S'`, return the remainder exactly when it is a
non-empty all-digit string.  The spec's description has no whitespace
stripping. -/
def specNormalizeId (e : String) : Option String :=
  let pre := localPart e
  let sid := stripLeadingS pre
  if pyIsDigit sid then some sid else none

/- ---------------------------------------------------------------------
convert_date_format (lines 124-144) and read_forms_data (lines 237-278).
--------------------------------------------------------------------- -/

/-- `convert_date_format`: `f'{day}/{month}'`, no leading zeros. -/
def convert_date_format (day month : Nat) : String :=
  Nat.repr day ++ "/" ++ Nat.repr month

/-- `read_forms_data`: normalize each raw form row and drop the rows whose
student id could not be extracted (`dropna(subset=['student_id'])`). -/
def read_forms_data (rows : List RawFormRow) : List FormRecord :=
  rows.filterMap (fun r =>
    (extract_student_id r.email).map (fun sid =>
      { studentId := sid
        date := convert_date_format r.startDay r.startMonth
        completion := r.completion }))

/- ---------------------------------------------------------------------
calculate_attendance (source lines 147-198).
--------------------------------------------------------------------- -/

/-- `start_hour, start_minute = map(int, start_time_str.split(':'))`
(source line 173): `none` models the `ValueError` raised on a malformed
string. -/
def parseStartTime (s : String) : Option (Nat × Nat) :=
  match splitOnCharList ':' s.data with
  | [hs, ms] =>
    match digitsToNat? hs, digitsToNat? ms with
    | some h, some m => some (h, m)
    | _, _ => none
  | _ => none

/-- `calculate_attendance(completion_time, start_time_str, duration)`.
`completionTod` is the completion timestamp's time of day in seconds;
`class_start` is the same date at the parsed hour/minute with seconds
zeroed, so only times of day matter.  `none` models the exceptions raised
on an unparseable start string or out-of-range hour/minute
(`datetime.replace` validates them); both are prevented upstream by the
CLI regex.  Minutes are returned as `Int` like Python's. -/
def calculate_attendance (completionTod : Nat) (startTimeStr : String)
    (durationMinutes : Nat) : Option (String × Int) :=
  match parseStartTime startTimeStr with
  | none => none
  | some (sh, sm) =>
    if 24 ≤ sh ∨ 60 ≤ sm then none
    else
      let classStart := sh * 3600 + sm * 60
      let classEnd := classStart + durationMinutes * 60
      if completionTod ≤ classStart then some ("Y", (durationMinutes : Int))
      else if classEnd ≤ completionTod then some ("N", 0)
      else some ("Y", (durationMinutes : Int) -
        (((completionTod - classStart) / 60 : Nat) : Int))

/- ---------------------------------------------------------------------
read_template_file (source lines 281-331): the roster indexer.
--------------------------------------------------------------------- -/

/-- `pd.notna(v) and isinstance(v, str) and '/' in v` (source line 313). -/
def isDateCell (c : Cell) : Bool :=
  match c with
  | Cell.s v => containsSlash v
  | _ => false

/-- Python dict assignment `m[k] = v`: replace the value in place when the
key exists, append otherwise. -/
def upsertDC (m : DCMap) (k : String) (v : Nat × Nat) : DCMap :=
  match m with
  | [] => [(k, v)]
  | (k', v') :: rest =>
    if k' = k then (k, v) :: rest else (k', v') :: upsertDC rest k v

/-- Python dict lookup `m[k]` / `k in m`. -/
def lookupDC : DCMap → String → Option (Nat × Nat)
  | [], _ => none
  | (k, v) :: rest, d => if k = d then some v else lookupDC rest d

/-- The loop of source lines 312-319: scan the date row left to right
(`i` is the absolute column index of the first cell of `cells`), register
each string cell containing `'/'` as `{code_col: i, minutes_col: i+1}`. -/
def buildAux : Nat → List Cell → DCMap → DCMap
  | _, [], m => m
  | i, Cell.s v :: cs, m =>
    buildAux (i + 1) cs (if containsSlash v then upsertDC m v (i, i + 1) else m)
  | i, _ :: cs, m => buildAux (i + 1) cs m

/-- `date_columns` built from the date header row. -/
def buildDateColumns (row : List Cell) : DCMap := buildAux 0 row []

/-- `read_template_file`: reads rows 3 and 4 with `iloc` — when the table
has fewer than 5 rows, `iloc` raises `IndexError`, the `except` clause
re-raises, and the run aborts (modelled as `.error`).  Otherwise it returns
the raw table together with the date-column map built from row 3. -/
def read_template_file (df : Table) : Except String (Table × DCMap) :=
  match df.get? 3, df.get? 4 with
  | some dateRow, some _ => Except.ok (df, buildDateColumns dateRow)
  | _, _ => Except.error "IndexError: single positional indexer is out-of-bounds"

/- ---------------------------------------------------------------------
Table access and update primitives.
--------------------------------------------------------------------- -/

/-- In-place update of one list position (`iloc` assignment within bounds);
a no-op out of bounds, which never happens on the rectangular tables the
script manipulates. -/
def setNth : List Cell → Nat → Cell → List Cell
  | [], _, _ => []
  | _ :: xs, 0, v => v :: xs
  | x :: xs, Nat.succ k, v => x :: setNth xs k v

/-- `updated_df.iloc[i, c] = v`. -/
def setTableCell : Table → Nat → Nat → Cell → Table
  | [], _, _, _ => []
  | r :: rs, 0, c, v => setNth r c v :: rs
  | r :: rs, Nat.succ i, c, v => r :: setTableCell rs i c v

/-- `df.iloc[i, c]` as an optional read (`none` only out of the rectangular
bounds). -/
def getTableCell? (t : Table) (i c : Nat) : Option Cell :=
  (t.get? i).bind (fun r => r.get? c)

/- ---------------------------------------------------------------------
update_attendance_data (source lines 334-425): the reconciler.
--------------------------------------------------------------------- -/

/-- `str(int(float(form_row['student_id'])))` (source line 364) on the
all-digit ids produced by `extract_student_id`: decimal value re-rendered
without leading zeros.  (`float` is exact below `2^53`; student ids are
7 digits.  A non-numeric string would raise — modelled `none` — but
`read_forms_data` never produces one.) -/
def canonicalFormId (sid : String) : Option String :=
  (digitsToNat? sid.data).map Nat.repr

/-- `str(int(updated_df.iloc[row_idx, 0])) if pd.notna(...) else None`
(source line 376).  NaN gives `None`; a number is truncated to int and
rendered; `int` of a non-numeric string cell would raise (modelled `none`;
no claim exercises it — roster id cells are numeric). -/
def templateIdStr0 (c : Option Cell) : Option String :=
  match c with
  | some (Cell.n v) => some v.repr
  | some (Cell.s v) => (digitsToNat? v.data).map Nat.repr
  | _ => none

/-- The scan of source lines 375-393: first row index `≥ 5` whose column-0
id renders equal to the record's canonical id (`i` is the absolute index
of the first row of the remaining list). -/
def findFrom (sid : String) : Nat → Table → Option Nat
  | _, [] => none
  | i, r :: rs =>
    if 5 ≤ i ∧ templateIdStr0 (r.get? 0) = some sid then some i
    else findFrom sid (i + 1) rs

/-- First matching roster row for a canonical student id. -/
def findMatchRow (t : Table) (sid : String) : Option Nat := findFrom sid 0 t

/-- One iteration of the Phase-A loop (source lines 363-396): skip when the
date is not in `date_columns` or no roster row matches; otherwise compute
the attendance cell and write code and minutes into the matched row. -/
def applyRecord (t : Table) (rec : FormRecord) (dcm : DCMap)
    (startTime : String) (duration : Nat) : Table :=
  match canonicalFormId rec.studentId with
  | none => t
  | some sid =>
    match lookupDC dcm rec.date with
    | none => t
    | some (cc, mc) =>
      match findMatchRow t sid with
      | none => t
      | some i =>
        match calculate_attendance rec.completion startTime duration with
        | none => t
        | some (code, minutes) =>
          setTableCell (setTableCell t i cc (Cell.s code)) i mc (Cell.n minutes)

/-- Phase A: apply every form record in input order. -/
def applyResponses (recs : List FormRecord) (t : Table) (dcm : DCMap)
    (startTime : String) (duration : Nat) : Table :=
  recs.foldl (fun acc r => applyRecord acc r dcm startTime duration) t

/-- `forms_df['date'].unique()`: the date labels in order of first
occurrence. -/
def datesInForms (recs : List FormRecord) : List String :=
  recs.foldl (fun acc r => if r.date ∈ acc then acc else acc ++ [r.date]) []

/-- One row of the Phase-B loop (source lines 412-422): when the code cell
still holds the sentinel `"--"`, set code `'N'` and minutes `0`. -/
def markRowAbsent (r : List Cell) (cc mc : Nat) : List Cell :=
  if r.get? cc = some (Cell.s "--") then
    setNth (setNth r cc (Cell.s "N")) mc (Cell.n 0)
  else r

/-- `for row_idx in range(5, len(updated_df))`: rows before index 5 are
untouched (`i` is the absolute index of the first row of the list). -/
def markFrom (cc mc : Nat) : Nat → Table → Table
  | _, [] => []
  | i, r :: rs =>
    (if 5 ≤ i then markRowAbsent r cc mc else r) :: markFrom cc mc (i + 1) rs

/-- Phase B for one date's column pair. -/
def markDateAbsent (t : Table) (cc mc : Nat) : Table := markFrom cc mc 0 t

/-- Phase B (source lines 404-423): for each date of the form data present
in `date_columns`, replace remaining sentinels in its code column by
`('N', 0)`. -/
def mark_absent_students (t : Table) (dcm : DCMap) (dates : List String) : Table :=
  dates.foldl (fun acc d =>
    match lookupDC dcm d with
    | none => acc
    | some (cc, mc) => markDateAbsent acc cc mc) t

/-- `update_attendance_data`: Phase A then Phase B over the dates appearing
in the form data. -/
def update_attendance_data (recs : List FormRecord) (t : Table) (dcm : DCMap)
    (startTime : String) (duration : Nat) : Table :=
  mark_absent_students (applyResponses recs t dcm startTime duration) dcm
    (datesInForms recs)

/- ---------------------------------------------------------------------
save_updated_template (source lines 428-496): the selective writer.
--------------------------------------------------------------------- -/

/-- The string both sides of the comparison of source lines 472-473 are
mapped to: `str(v) if v is not None and v != '' else ""`.  An xlrd empty
cell reads as `''` and a pandas empty cell as NaN; both normalize to `""`
(hence `na ↦ ""`), a number renders as its decimal string. -/
def pyStr : Cell → String
  | Cell.na => ""
  | Cell.s v => v
  | Cell.n v => v.repr

/-- The write decision of source lines 458-486 for position `(r, c)` of
the loop over the updated table: skip NaN; beyond the original sheet's
bounds, write; otherwise write exactly when the normalized string
renderings differ. -/
def shouldWrite (orig upd : Table) (r c : Nat) : Bool :=
  match getTableCell? upd r c with
  | none => false
  | some uv =>
    if uv = Cell.na then false
    else
      match getTableCell? orig r c with
      | some ov => pyStr ov != pyStr uv
      | none => true

/-- Modelled from the spec (section 4.6 words, for comparison with the
source): the spec additionally requires the updated value to be non-empty
("if the updated value is empty/unset, skip"). -/
def specShouldWrite (orig upd : Table) (r c : Nat) : Bool :=
  match getTableCell? upd r c with
  | none => false
  | some uv =>
    if uv = Cell.na ∨ uv = Cell.s "" then false
    else
      match getTableCell? orig r c with
      | some ov => pyStr ov != pyStr uv
      | none => true

/-- The set of positions `save_updated_template` writes into the
style-preserving copy. -/
def writtenPositions (orig upd : Table) : List (Nat × Nat) :=
  ((List.range upd.length).map (fun r =>
    (List.range (((upd.get? r).map List.length).getD 0)).filterMap (fun c =>
      if shouldWrite orig upd r c then some (r, c) else none))).flatten

/-- Content of the output file at a position: the updated value where a
write happened, the original cell otherwise (the output starts as a
full-fidelity copy of the original workbook). -/
def outputCell (orig upd : Table) (r c : Nat) : Option Cell :=
  if shouldWrite orig upd r c then getTableCell? upd r c else getTableCell? orig r c

/- ---------------------------------------------------------------------
Specification-side helper predicates used by the theorems below.
--------------------------------------------------------------------- -/

/-- Column `cc` holds no sentinel in any roster row (index `≥ 5`). -/
def ColFree (t : Table) (cc : Nat) : Prop :=
  ∀ i, 5 ≤ i → getTableCell? t i cc ≠ some (Cell.s "--")

/-- Every roster cell of column `cc` is the sentinel, a `'Y'` or an `'N'`
(the invariant Phase A maintains on a code column whose cells start as
sentinels). -/
def TriState (t : Table) (cc : Nat) : Prop :=
  ∀ i, 5 ≤ i → ∀ w, getTableCell? t i cc = some w →
    w = Cell.s "--" ∨ w = Cell.s "Y" ∨ w = Cell.s "N"

/-- Index of the last (rightmost) cell equal to `Cell.s lbl` in a date
header row whose label contains `'/'` (absolute index: `i` is the index
of the first listed cell).  Characterizes which entry wins in
`buildDateColumns` when a label repeats. -/
def lastIdx (lbl : String) : Nat → List Cell → Option Nat
  | _, [] => none
  | i, c :: cs =>
    match lastIdx lbl (i + 1) cs with
    | some j => some j
    | none =>
      if c = Cell.s lbl ∧ containsSlash lbl = true then some i else none

/- ---------------------------------------------------------------------
Lemmas about the table primitives.
--------------------------------------------------------------------- -/

theorem length_setNth (r : List Cell) (j : Nat) (v : Cell) :
    (setNth r j v).length = r.length := by
  induction r generalizing j with
  | nil => simp [setNth]
  | cons x xs ih =>
    cases j with
    | zero => simp [setNth]
    | succ j' => simp [setNth, ih]

theorem get?_setNth (r : List Cell) (j : Nat) (v : Cell) (k : Nat) :
    (setNth r j v).get? k = if k = j ∧ j < r.length then some v else r.get? k := by
  induction r generalizing j k with
  | nil => simp [setNth]
  | cons x xs ih =>
    cases j with
    | zero =>
      cases k with
      | zero => simp [setNth]
      | succ k' => simp [setNth]
    | succ j' =>
      cases k with
      | zero => simp [setNth]
      | succ k' =>
        simp only [setNth, List.get?_cons_succ, List.length_cons, ih j' k']
        exact if_congr (by omega) rfl rfl

theorem get?_setTableCell (t : Table) (i c : Nat) (v : Cell) (j : Nat) :
    (setTableCell t i c v).get? j =
      if j = i then (t.get? i).map (fun r => setNth r c v) else t.get? j := by
  induction t generalizing i j with
  | nil => simp [setTableCell]
  | cons r rs ih =>
    cases i with
    | zero =>
      cases j with
      | zero => simp [setTableCell]
      | succ j' => simp [setTableCell]
    | succ i' =>
      cases j with
      | zero => simp [setTableCell]
      | succ j' =>
        simp only [setTableCell, List.get?_cons_succ, ih i' j']
        exact if_congr (by omega) rfl rfl

theorem get?_markFrom (cc mc : Nat) : ∀ (rows : Table) (i k : Nat),
    (markFrom cc mc i rows).get? k =
      (rows.get? k).map (fun r => if 5 ≤ i + k then markRowAbsent r cc mc else r) := by
  intro rows
  induction rows with
  | nil => intro i k; simp [markFrom]
  | cons r rs ih =>
    intro i k
    cases k with
    | zero => simp [markFrom, List.get?]
    | succ k' =>
      simp only [markFrom, List.get?, ih (i + 1) k']
      have h : i + 1 + k' = i + (k' + 1) := by omega
      rw [h]

/- ---------------------------------------------------------------------
Phase B: sentinel-freedom and idempotence.
--------------------------------------------------------------------- -/

theorem get?_markRowAbsent_cases (r : List Cell) (cc mc k : Nat) :
    (markRowAbsent r cc mc).get? k = r.get? k ∨
    (markRowAbsent r cc mc).get? k = some (Cell.s "N") ∨
    (markRowAbsent r cc mc).get? k = some (Cell.n 0) := by
  rw [markRowAbsent]
  by_cases h : r.get? cc = some (Cell.s "--")
  · rw [if_pos h, get?_setNth, get?_setNth]
    by_cases h1 : k = mc ∧ mc < (setNth r cc (Cell.s "N")).length
    · rw [if_pos h1]; right; right; rfl
    · rw [if_neg h1]
      by_cases h2 : k = cc ∧ cc < r.length
      · rw [if_pos h2]; right; left; rfl
      · rw [if_neg h2]; left; rfl
  · rw [if_neg h]; left; rfl

theorem get?_markRowAbsent_cc (r : List Cell) (cc mc : Nat) :
    (markRowAbsent r cc mc).get? cc ≠ some (Cell.s "--") := by
  rw [markRowAbsent]
  by_cases h : r.get? cc = some (Cell.s "--")
  · have hlt : cc < r.length := by
      by_contra hge
      rw [List.get?_eq_none.mpr (Nat.le_of_not_lt hge)] at h
      exact Option.noConfusion h
    rw [if_pos h, get?_setNth, get?_setNth]
    by_cases h1 : cc = mc ∧ mc < (setNth r cc (Cell.s "N")).length
    · rw [if_pos h1]; intro hc; exact Cell.noConfusion (Option.some.inj hc)
    · rw [if_neg h1, if_pos ⟨rfl, hlt⟩]
      intro hc
      exact absurd (Cell.s.inj (Option.some.inj hc)) (by decide)
  · rw [if_neg h]; exact h

theorem get?_markRowAbsent_preserve (r : List Cell) (cc mc k : Nat)
    (h : r.get? k ≠ some (Cell.s "--")) :
    (markRowAbsent r cc mc).get? k ≠ some (Cell.s "--") := by
  rcases get?_markRowAbsent_cases r cc mc k with hc | hc | hc <;> rw [hc]
  · exact h
  · intro hx; exact absurd (Cell.s.inj (Option.some.inj hx)) (by decide)
  · intro hx; exact Cell.noConfusion (Option.some.inj hx)

theorem colFree_markDateAbsent_self (t : Table) (cc mc : Nat) :
    ColFree (markDateAbsent t cc mc) cc := by
  intro i h5
  rw [markDateAbsent, getTableCell?, get?_markFrom]
  cases h : t.get? i with
  | none => simp
  | some r =>
    simp only [Option.map_some', Nat.zero_add, if_pos h5, Option.some_bind]
    exact get?_markRowAbsent_cc r cc mc

theorem colFree_markDateAbsent (t : Table) (cc mc cc0 : Nat) (h : ColFree t cc0) :
    ColFree (markDateAbsent t cc mc) cc0 := by
  intro i h5
  rw [markDateAbsent, getTableCell?, get?_markFrom]
  cases ht : t.get? i with
  | none => simp
  | some r =>
    simp only [Option.map_some', Nat.zero_add, if_pos h5, Option.some_bind]
    apply get?_markRowAbsent_preserve
    have := h i h5
    rw [getTableCell?, ht] at this
    exact this

theorem markAll_cons (t : Table) (dcm : DCMap) (d : String) (ds : List String) :
    mark_absent_students t dcm (d :: ds) =
      mark_absent_students
        (match lookupDC dcm d with
         | none => t
         | some (cc, mc) => markDateAbsent t cc mc) dcm ds := rfl

theorem colFree_markAll (t : Table) (dcm : DCMap) (ds : List String) (cc0 : Nat)
    (h : ColFree t cc0) : ColFree (mark_absent_students t dcm ds) cc0 := by
  induction ds generalizing t with
  | nil => exact h
  | cons d ds ih =>
    rw [markAll_cons]
    cases hl : lookupDC dcm d with
    | none => exact ih t h
    | some p => exact ih _ (colFree_markDateAbsent t p.1 p.2 cc0 h)

theorem colFree_markAll_mem (t : Table) (dcm : DCMap) (ds : List String)
    (d : String) (cc mc : Nat) (hd : d ∈ ds) (hl : lookupDC dcm d = some (cc, mc)) :
    ColFree (mark_absent_students t dcm ds) cc := by
  induction ds generalizing t with
  | nil => cases hd
  | cons d0 ds ih =>
    rw [markAll_cons]
    rcases List.mem_cons.mp hd with rfl | hmem
    · rw [hl]
      exact colFree_markAll _ dcm ds cc (colFree_markDateAbsent_self t cc mc)
    · cases lookupDC dcm d0 with
      | none => exact ih t hmem
      | some p => exact ih _ hmem

theorem markRowAbsent_id (r : List Cell) (cc mc : Nat)
    (h : r.get? cc ≠ some (Cell.s "--")) : markRowAbsent r cc mc = r := by
  rw [markRowAbsent, if_neg h]

theorem markFrom_id (cc mc : Nat) : ∀ (rows : Table) (i : Nat),
    (∀ k r, 5 ≤ i + k → rows.get? k = some r → r.get? cc ≠ some (Cell.s "--")) →
    markFrom cc mc i rows = rows := by
  intro rows
  induction rows with
  | nil => intro i _; rfl
  | cons r rs ih =>
    intro i h
    rw [markFrom]
    congr 1
    · by_cases h5 : 5 ≤ i
      · rw [if_pos h5]
        exact markRowAbsent_id r cc mc (h 0 r (by omega) rfl)
      · rw [if_neg h5]
    · exact ih (i + 1) (fun k r' hk hr => h (k + 1) r' (by omega) hr)

theorem markDateAbsent_id (t : Table) (cc mc : Nat) (h : ColFree t cc) :
    markDateAbsent t cc mc = t := by
  rw [markDateAbsent]
  apply markFrom_id
  intro k r hk hr
  have := h k (by omega)
  rw [getTableCell?, hr] at this
  exact this

theorem markAll_id (t : Table) (dcm : DCMap) (ds : List String)
    (h : ∀ d cc mc, d ∈ ds → lookupDC dcm d = some (cc, mc) → ColFree t cc) :
    mark_absent_students t dcm ds = t := by
  induction ds with
  | nil => rfl
  | cons d ds ih =>
    rw [markAll_cons]
    cases hl : lookupDC dcm d with
    | none => exact ih (fun d' cc mc hd' => h d' cc mc (List.mem_cons_of_mem _ hd'))
    | some p =>
      obtain ⟨cc, mc⟩ := p
      show mark_absent_students (markDateAbsent t cc mc) dcm ds = t
      rw [markDateAbsent_id t cc mc (h d cc mc (List.mem_cons_self d ds) hl)]
      exact ih (fun d' cc' mc' hd' => h d' cc' mc' (List.mem_cons_of_mem _ hd'))

/-- Claim C8: Phase B (mark absences) is idempotent — for every roster
table, date-column map and date list, running the absence-marking pass a
second time changes nothing, because the first pass leaves no sentinel in
any processed date's code column and never writes a sentinel. -/
theorem claim_C8_idempotent (t : Table) (dcm : DCMap) (dates : List String) :
    mark_absent_students (mark_absent_students t dcm dates) dcm dates =
      mark_absent_students t dcm dates :=
  markAll_id _ dcm dates
    (fun d cc mc hd hl => colFree_markAll_mem t dcm dates d cc mc hd hl)

/- ---------------------------------------------------------------------
Claims C1, C2, C9: the attendance calculator.
--------------------------------------------------------------------- -/

theorem calculate_attendance_eq (tod : Nat) (st : String) (du sh sm : Nat)
    (hp : parseStartTime st = some (sh, sm)) :
    calculate_attendance tod st du =
      if 24 ≤ sh ∨ 60 ≤ sm then none
      else if tod ≤ sh * 3600 + sm * 60 then some ("Y", (du : Int))
      else if sh * 3600 + sm * 60 + du * 60 ≤ tod then some ("N", 0)
      else some ("Y", (du : Int) - (((tod - (sh * 3600 + sm * 60)) / 60 : Nat) : Int)) := by
  unfold calculate_attendance
  rw [hp]

/-- Claim C1: for every completion time of day, parseable in-range start
time and positive duration, a completion at or before the class start
instant (the completion date at the start hour/minute, seconds zeroed)
yields `('Y', duration)`, and a completion at or after class start plus
the duration yields `('N', 0)`. -/
theorem claim_C1_boundaries (tod : Nat) (st : String) (sh sm du : Nat)
    (hp : parseStartTime st = some (sh, sm)) (hh : sh < 24) (hm : sm < 60)
    (hd : 0 < du) :
    (tod ≤ sh * 3600 + sm * 60 →
      calculate_attendance tod st du = some ("Y", (du : Int))) ∧
    (sh * 3600 + sm * 60 + du * 60 ≤ tod →
      calculate_attendance tod st du = some ("N", 0)) := by
  rw [calculate_attendance_eq tod st du sh sm hp]
  constructor
  · intro h
    rw [if_neg (by omega), if_pos h]
  · intro h
    rw [if_neg (by omega), if_neg (by omega), if_pos h]

theorem claim_C1_witness :
    calculate_attendance 46800 "13:00" 180 = some ("Y", 180) ∧
    calculate_attendance 57600 "13:00" 180 = some ("N", 0) :=
  ⟨(claim_C1_boundaries 46800 "13:00" 13 0 180 rfl (by decide) (by decide)
      (by decide)).1 (by decide),
   (claim_C1_boundaries 57600 "13:00" 13 0 180 rfl (by decide) (by decide)
      (by decide)).2 (by decide)⟩

/-- Claim C2: for a completion strictly between the class start instant
and the class end instant, the result is code `'Y'` with minutes equal to
the duration minus the whole number of elapsed minutes since class start,
the sub-minute remainder truncated (floor), not rounded. -/
theorem claim_C2_strict_between (tod : Nat) (st : String) (sh sm du : Nat)
    (hp : parseStartTime st = some (sh, sm)) (hh : sh < 24) (hm : sm < 60)
    (_hd : 0 < du) (h1 : sh * 3600 + sm * 60 < tod)
    (h2 : tod < sh * 3600 + sm * 60 + du * 60) :
    calculate_attendance tod st du =
      some ("Y", (du : Int) - (((tod - (sh * 3600 + sm * 60)) / 60 : Nat) : Int)) := by
  rw [calculate_attendance_eq tod st du sh sm hp,
    if_neg (by omega), if_neg (by omega), if_neg (by omega)]

theorem claim_C2_witness :
    calculate_attendance 47700 "13:00" 180 = some ("Y", 165) := by
  have h := claim_C2_strict_between 47700 "13:00" 13 0 180 rfl (by decide)
    (by decide) (by decide) (by decide) (by decide)
  exact h.trans (by decide)

/-- Claim C9: for every completion time of day, parseable in-range start
time and positive duration, the returned minutes lie in `[0, duration]`
and the code is `'N'` exactly when the minutes are `0` (so a `'Y'` always
carries positive minutes — in the strictly-between branch the computed
minutes are at least 1). -/
theorem claim_C9_range (tod : Nat) (st : String) (sh sm du : Nat) (c : String)
    (mi : Int) (hp : parseStartTime st = some (sh, sm)) (hh : sh < 24)
    (hm : sm < 60) (hd : 0 < du)
    (hc : calculate_attendance tod st du = some (c, mi)) :
    (c = "Y" ∨ c = "N") ∧ 0 ≤ mi ∧ mi ≤ (du : Int) ∧ (c = "N" ↔ mi = 0) := by
  rw [calculate_attendance_eq tod st du sh sm hp, if_neg (by omega)] at hc
  by_cases hb1 : tod ≤ sh * 3600 + sm * 60
  · rw [if_pos hb1] at hc
    injection hc with h
    injection h with h1 h2
    subst h1; subst h2
    refine ⟨Or.inl rfl, by omega, by omega, ?_, ?_⟩
    · intro h; exact absurd h (by decide)
    · intro h; exact absurd h (by omega)
  · rw [if_neg hb1] at hc
    by_cases hb2 : sh * 3600 + sm * 60 + du * 60 ≤ tod
    · rw [if_pos hb2] at hc
      injection hc with h
      injection h with h1 h2
      subst h1; subst h2
      exact ⟨Or.inr rfl, by omega, by omega, by simp⟩
    · rw [if_neg hb2] at hc
      injection hc with h
      injection h with h1 h2
      subst h1; subst h2
      refine ⟨Or.inl rfl, by omega, by omega, ?_, ?_⟩
      · intro h; exact absurd h (by decide)
      · intro h; exact absurd h (by omega)

theorem claim_C9_witness :
    calculate_attendance 47700 "13:00" 180 = some ("Y", 165) ∧
    (("Y" = "Y" ∨ "Y" = "N") ∧ 0 ≤ (165 : Int) ∧
      (165 : Int) ≤ ((180 : Nat) : Int) ∧ ("Y" = "N" ↔ (165 : Int) = 0)) :=
  ⟨by decide,
   claim_C9_range 47700 "13:00" 13 0 180 "Y" 165 rfl (by decide) (by decide)
     (by decide) (by decide)⟩

/- ---------------------------------------------------------------------
Claim C10: numeric identifier matching in the reconciler.
--------------------------------------------------------------------- -/

/-- Claim C10: the reconciler does not compare identifier strings
verbatim — the form id goes through `str(int(float(...)))` and the roster
cell through `str(int(...))`, so two ids match exactly on their numeric
values: the canonical rendering depends only on the parsed numeric value
(leading zeros never prevent or affect a match), and a form id with value
`n` renders equal to a roster number cell holding `n`; in particular
`"0123"` canonicalizes to `"123"` and matches a roster cell `123`. -/
theorem claim_C10_numeric_match :
    (∀ s₁ s₂ : String, digitsToNat? s₁.data = digitsToNat? s₂.data →
        canonicalFormId s₁ = canonicalFormId s₂) ∧
    (∀ (s : String) (n : Nat), digitsToNat? s.data = some n →
        canonicalFormId s = some (Nat.repr n) ∧
        templateIdStr0 (some (Cell.n (n : Int))) = some (Nat.repr n)) ∧
    canonicalFormId "0123" = some "123" ∧
    templateIdStr0 (some (Cell.n 123)) = some "123" := by
  refine ⟨?_, ?_, by decide, by decide⟩
  · intro s₁ s₂ h
    rw [canonicalFormId, canonicalFormId, h]
  · intro s n h
    constructor
    · rw [canonicalFormId, h]
      rfl
    · rfl

theorem claim_C10_witness :
    canonicalFormId "0123" = some (Nat.repr 123) ∧
    templateIdStr0 (some (Cell.n ((123 : Nat) : Int))) = some (Nat.repr 123) :=
  claim_C10_numeric_match.2.1 "0123" 123 (by decide)

/- ---------------------------------------------------------------------
Claim C6: the identifier normalizer.
--------------------------------------------------------------------- -/

/-- Claim C6 counterexample: the claim describes the normalizer as "drop
everything from `'@'` onward, strip a single leading `'S'`/`'s'`, return
the remainder exactly when it is a non-empty all-digit string"
(`specNormalizeId`).  On `"123 @x.com"` that remainder is `"123 "`, which
is not all-digit, so the claim demands `None` — but the source also runs
`.strip()` on the local part (line 104) and returns `"123"`. -/
theorem claim_C6_counterexample :
    extract_student_id (some "123 @x.com") = some "123" ∧
    specNormalizeId "123 @x.com" = none := by decide

/-- Claim C6 amended: the normalizer drops everything from `'@'` onward,
strips surrounding whitespace from the local part, then strips a single
leading case-insensitive `'S'`, and returns the remainder exactly when it
is a non-empty all-digit string, `none` otherwise (and `none` for an
absent input); in particular the four examples of the claim hold. -/
theorem claim_C6_amended :
    extract_student_id none = none ∧
    extract_student_id (some "S4186054@rmit.edu.vn") = some "4186054" ∧
    extract_student_id (some "s3992383@rmit.edu.vn") = some "3992383" ∧
    extract_student_id (some "4019025@rmit.edu.vn") = some "4019025" ∧
    extract_student_id (some "abc@x.com") = none ∧
    extract_student_id (some " S123 @x.com") = some "123" ∧
    (∀ e : String, extract_student_id (some e) =
        (if pyIsDigit (stripLeadingS (pyStrip (localPart e)))
         then some (stripLeadingS (pyStrip (localPart e))) else none)) :=
  ⟨rfl, by decide, by decide, by decide, by decide, by decide, fun e => rfl⟩

/- ---------------------------------------------------------------------
Claim C5: the roster indexer's date-column map.
--------------------------------------------------------------------- -/

theorem lookupDC_upsert_self (m : DCMap) (k : String) (v : Nat × Nat) :
    lookupDC (upsertDC m k v) k = some v := by
  induction m with
  | nil => simp [upsertDC, lookupDC]
  | cons kv rest ih =>
    obtain ⟨k', v'⟩ := kv
    by_cases h : k' = k
    · subst h
      simp [upsertDC, lookupDC]
    · simp [upsertDC, lookupDC, h, ih]

theorem lookupDC_upsert_ne (m : DCMap) (k k' : String) (v : Nat × Nat)
    (h : k' ≠ k) : lookupDC (upsertDC m k v) k' = lookupDC m k' := by
  induction m with
  | nil =>
    simp only [upsertDC, lookupDC]
    rw [if_neg (fun hh : k = k' => h hh.symm)]
  | cons kv rest ih =>
    obtain ⟨k0, v0⟩ := kv
    by_cases h0 : k0 = k
    · subst h0
      simp only [upsertDC, if_pos rfl, lookupDC]
      rw [if_neg (fun hh : k0 = k' => h hh.symm),
        if_neg (fun hh : k0 = k' => h hh.symm)]
    · simp only [upsertDC, if_neg h0, lookupDC]
      by_cases h1 : k0 = k'
      · rw [if_pos h1, if_pos h1]
      · rw [if_neg h1, if_neg h1, ih]

theorem buildAux_lookup (lbl : String) : ∀ (cells : List Cell) (i : Nat) (m : DCMap),
    lookupDC (buildAux i cells m) lbl =
      match lastIdx lbl i cells with
      | some j => some (j, j + 1)
      | none => lookupDC m lbl := by
  intro cells
  induction cells with
  | nil => intro i m; rfl
  | cons c cs ih =>
    intro i m
    cases c with
    | na =>
      rw [show buildAux i (Cell.na :: cs) m = buildAux (i + 1) cs m from rfl, ih]
      cases hli : lastIdx lbl (i + 1) cs <;> simp [lastIdx, hli]
    | n v =>
      rw [show buildAux i (Cell.n v :: cs) m = buildAux (i + 1) cs m from rfl, ih]
      cases hli : lastIdx lbl (i + 1) cs <;> simp [lastIdx, hli]
    | s v =>
      by_cases hs : containsSlash v = true
      · rw [show buildAux i (Cell.s v :: cs) m =
            buildAux (i + 1) cs (if containsSlash v then upsertDC m v (i, i + 1) else m)
            from rfl, if_pos hs, ih]
        cases hli : lastIdx lbl (i + 1) cs with
        | some j => simp [lastIdx, hli]
        | none =>
          simp only [lastIdx, hli]
          by_cases hv : v = lbl
          · subst hv
            rw [lookupDC_upsert_self, if_pos ⟨rfl, hs⟩]
          · rw [lookupDC_upsert_ne m v lbl _ (fun hh => hv hh.symm),
              if_neg (fun hh => hv (Cell.s.inj hh.1))]
      · rw [show buildAux i (Cell.s v :: cs) m =
            buildAux (i + 1) cs (if containsSlash v then upsertDC m v (i, i + 1) else m)
            from rfl, if_neg hs, ih]
        cases hli : lastIdx lbl (i + 1) cs with
        | some j => simp [lastIdx, hli]
        | none =>
          simp only [lastIdx, hli]
          rw [if_neg]
          rintro ⟨hc, hsl⟩
          exact hs ((Cell.s.inj hc) ▸ hsl)

theorem lastIdx_mem (lbl : String) : ∀ (cells : List Cell) (i j : Nat),
    lastIdx lbl i cells = some j →
      containsSlash lbl = true ∧
      ∃ k, j = i + k ∧ cells.get? k = some (Cell.s lbl) := by
  intro cells
  induction cells with
  | nil => intro i j h; exact Option.noConfusion h
  | cons c cs ih =>
    intro i j h
    rw [lastIdx] at h
    cases hli : lastIdx lbl (i + 1) cs with
    | some j0 =>
      rw [hli] at h
      have hj : j0 = j := Option.some.inj h
      subst hj
      obtain ⟨hs, k0, hk0, hget⟩ := ih (i + 1) j0 hli
      exact ⟨hs, k0 + 1, by omega, hget⟩
    | none =>
      rw [hli] at h
      by_cases hc : (c = Cell.s lbl ∧ containsSlash lbl = true)
      · rw [if_pos hc] at h
        have hj : i = j := Option.some.inj h
        subst hj
        exact ⟨hc.2, 0, by omega, by rw [hc.1]; rfl⟩
      · rw [if_neg hc] at h
        exact Option.noConfusion h

theorem lastIdx_isSome_of_mem (lbl : String) (hs : containsSlash lbl = true) :
    ∀ (cells : List Cell) (i k : Nat), cells.get? k = some (Cell.s lbl) →
      ∃ j, lastIdx lbl i cells = some j := by
  intro cells
  induction cells with
  | nil => intro i k h; exact Option.noConfusion h
  | cons c cs ih =>
    intro i k h
    cases k with
    | zero =>
      have hc : c = Cell.s lbl := Option.some.inj h
      rw [lastIdx]
      cases hli : lastIdx lbl (i + 1) cs with
      | some j => exact ⟨j, rfl⟩
      | none => exact ⟨i, by rw [if_pos ⟨hc, hs⟩]⟩
    | succ k' =>
      obtain ⟨j, hj⟩ := ih (i + 1) k' h
      rw [lastIdx, hj]
      exact ⟨j, rfl⟩

theorem lastIdx_max (lbl : String) : ∀ (cells : List Cell) (i j : Nat),
    lastIdx lbl i cells = some j →
      ∀ k, cells.get? k = some (Cell.s lbl) → i + k ≤ j := by
  intro cells
  induction cells with
  | nil => intro i j h; exact Option.noConfusion h
  | cons c cs ih =>
    intro i j h k hk
    rw [lastIdx] at h
    cases hli : lastIdx lbl (i + 1) cs with
    | some j0 =>
      rw [hli] at h
      have hj : j0 = j := Option.some.inj h
      subst hj
      cases k with
      | zero =>
        obtain ⟨-, k0, hk0, -⟩ := lastIdx_mem lbl cs (i + 1) j0 hli
        omega
      | succ k' =>
        have := ih (i + 1) j0 hli k' hk
        omega
    | none =>
      rw [hli] at h
      by_cases hc : (c = Cell.s lbl ∧ containsSlash lbl = true)
      · rw [if_pos hc] at h
        have hj : i = j := Option.some.inj h
        subst hj
        cases k with
        | zero => omega
        | succ k' =>
          obtain ⟨j0, hj0⟩ := lastIdx_isSome_of_mem lbl hc.2 cs (i + 1) k' hk
          rw [hj0] at hli
          exact Option.noConfusion hli
      · rw [if_neg hc] at h
        exact Option.noConfusion h

theorem buildDateColumns_lookup (row : List Cell) (lbl : String) (cc mc : Nat) :
    lookupDC (buildDateColumns row) lbl = some (cc, mc) ↔
      (mc = cc + 1 ∧ containsSlash lbl = true ∧
        row.get? cc = some (Cell.s lbl) ∧
        ∀ j, cc < j → row.get? j ≠ some (Cell.s lbl)) := by
  rw [buildDateColumns, buildAux_lookup lbl row 0 []]
  constructor
  · intro h
    cases hli : lastIdx lbl 0 row with
    | none => rw [hli] at h; exact Option.noConfusion h
    | some j =>
      rw [hli] at h
      have hpair : (j, j + 1) = (cc, mc) := Option.some.inj h
      have hcc : j = cc := congrArg Prod.fst hpair
      have hmc : j + 1 = mc := congrArg Prod.snd hpair
      subst hcc
      obtain ⟨hs, k, hk, hget⟩ := lastIdx_mem lbl row 0 j hli
      have hkj : k = j := by omega
      rw [hkj] at hget
      refine ⟨by omega, hs, hget, ?_⟩
      intro j' hj' hget'
      have := lastIdx_max lbl row 0 j hli j' hget'
      omega
  · rintro ⟨rfl, hs, hget, hmax⟩
    obtain ⟨j, hj⟩ := lastIdx_isSome_of_mem lbl hs row 0 cc hget
    have hjcc : j = cc := by
      obtain ⟨-, k, hk, hgetk⟩ := lastIdx_mem lbl row 0 j hj
      have hkj : k = j := by omega
      rw [hkj] at hgetk
      have h1 := lastIdx_max lbl row 0 j hj cc hget
      rcases Nat.lt_or_ge cc j with hlt | hge
      · exact absurd hgetk (hmax j hlt)
      · omega
    rw [hjcc] at hj
    rw [hj]

/-- Claim C5: when `read_template_file` succeeds it returns the raw table
together with a date-column map built by scanning header row index 3 in
ascending column order: a label maps to `(cc, mc)` exactly when it
contains `'/'`, `mc = cc + 1`, and `cc` is the last (rightmost) header
column holding that label — so exactly the non-empty slash-containing
string cells become entries and the rightmost occurrence wins. -/
theorem claim_C5_date_map (df t' : Table) (m : DCMap)
    (h : read_template_file df = Except.ok (t', m)) :
    t' = df ∧
    ∀ lbl cc mc, lookupDC m lbl = some (cc, mc) ↔
      (mc = cc + 1 ∧ containsSlash lbl = true ∧
        ∃ dateRow, df.get? 3 = some dateRow ∧
          dateRow.get? cc = some (Cell.s lbl) ∧
          ∀ j, cc < j → dateRow.get? j ≠ some (Cell.s lbl)) := by
  unfold read_template_file at h
  cases h3 : df.get? 3 with
  | none =>
    rw [h3] at h
    exact absurd h (by cases h4 : df.get? 4 <;> simp)
  | some dateRow =>
    rw [h3] at h
    cases h4 : df.get? 4 with
    | none =>
      rw [h4] at h
      exact absurd h (by simp)
    | some r4 =>
      rw [h4] at h
      have hpair : (df, buildDateColumns dateRow) = (t', m) :=
        Except.ok.inj h
      have ht : t' = df := (congrArg Prod.fst hpair).symm
      have hm : m = buildDateColumns dateRow := (congrArg Prod.snd hpair).symm
      subst ht
      subst hm
      refine ⟨rfl, ?_⟩
      intro lbl cc mc
      rw [buildDateColumns_lookup dateRow lbl cc mc]
      constructor
      · rintro ⟨h1, h2, h3', h4'⟩
        exact ⟨h1, h2, dateRow, rfl, h3', h4'⟩
      · rintro ⟨h1, h2, dr, hdr, h3', h4'⟩
        have hdd : dr = dateRow := (Option.some.inj hdr).symm
        subst hdd
        exact ⟨h1, h2, h3', h4'⟩

theorem claim_C5_witness :
    ∃ dateRow, ([[], [], [], [Cell.na, Cell.s "26/11", Cell.na], []] : Table).get? 3 =
        some dateRow ∧
      dateRow.get? 1 = some (Cell.s "26/11") ∧
      ∀ j, 1 < j → dateRow.get? j ≠ some (Cell.s "26/11") := by
  have h := claim_C5_date_map [[], [], [], [Cell.na, Cell.s "26/11", Cell.na], []]
    [[], [], [], [Cell.na, Cell.s "26/11", Cell.na], []]
    (buildDateColumns [Cell.na, Cell.s "26/11", Cell.na]) rfl
  exact (((h.2 "26/11" 1 2).mp rfl).2.2)

/- ---------------------------------------------------------------------
Claim C7: the selective writer.
--------------------------------------------------------------------- -/

theorem shouldWrite_iff (orig upd : Table) (r c : Nat) :
    shouldWrite orig upd r c = true ↔
      (∃ uv, getTableCell? upd r c = some uv ∧ uv ≠ Cell.na ∧
        (getTableCell? orig r c = none ∨
          ∃ ov, getTableCell? orig r c = some ov ∧ pyStr ov ≠ pyStr uv)) := by
  unfold shouldWrite
  cases hu : getTableCell? upd r c with
  | none => simp
  | some uv =>
    by_cases hna : uv = Cell.na
    · subst hna
      simp
    · cases ho : getTableCell? orig r c with
      | none => simp [hna]
      | some ov => simp [hna, bne_iff_ne]

theorem shouldWrite_self (t : Table) (r c : Nat) : shouldWrite t t r c = false := by
  unfold shouldWrite
  cases h : getTableCell? t r c with
  | none => rfl
  | some uv =>
    by_cases hna : uv = Cell.na
    · subst hna
      simp
    · simp [hna]

theorem writtenPositions_self (t : Table) : writtenPositions t t = [] := by
  unfold writtenPositions
  rw [List.flatten_eq_nil_iff]
  intro l hl
  obtain ⟨r, hr, rfl⟩ := List.mem_map.mp hl
  rw [List.filterMap_eq_nil_iff]
  intro a ha
  simp [shouldWrite_self]

theorem outputCell_self (t : Table) (r c : Nat) :
    outputCell t t r c = getTableCell? t r c := by
  simp [outputCell, shouldWrite_self]

/-- Claim C7 counterexample: the claim requires a written cell's updated
value to be non-empty, but the source only skips NaN (line 463): at
position (0,0) with original `"x"` and updated `""` the normalized
renderings differ, so the code writes the empty string, while the claim's
condition (`specShouldWrite`, which adds the non-empty requirement of the
spec's "if the updated value is empty/unset, skip") refuses. -/
theorem claim_C7_counterexample :
    shouldWrite [[Cell.s "x"]] [[Cell.s ""]] 0 0 = true ∧
    specShouldWrite [[Cell.s "x"]] [[Cell.s ""]] 0 0 = false := by decide

/-- Claim C7 amended: the writer writes a position iff the updated value
is non-NaN and either the position lies beyond the original table's
bounds or the two values' normalized string renderings differ (an empty
updated string is treated like any other value and compared by its
rendering `""`); consequently, for an updated table equal to the
original, no position is written, the written-position set is empty, and
the output content equals the original at every position. -/
theorem claim_C7_amended :
    (∀ (orig upd : Table) (r c : Nat),
        shouldWrite orig upd r c = true ↔
          (∃ uv, getTableCell? upd r c = some uv ∧ uv ≠ Cell.na ∧
            (getTableCell? orig r c = none ∨
              ∃ ov, getTableCell? orig r c = some ov ∧ pyStr ov ≠ pyStr uv))) ∧
    (∀ (t : Table) (r c : Nat), shouldWrite t t r c = false) ∧
    (∀ t : Table, writtenPositions t t = []) ∧
    (∀ (t : Table) (r c : Nat), outputCell t t r c = getTableCell? t r c) :=
  ⟨shouldWrite_iff, shouldWrite_self, writtenPositions_self, outputCell_self⟩

/- ---------------------------------------------------------------------
Claim C4: error handling of recoverable conditions.
--------------------------------------------------------------------- -/

theorem buildAux_no_dates : ∀ (cells : List Cell) (i : Nat) (m : DCMap),
    (∀ c ∈ cells, isDateCell c = false) → buildAux i cells m = m := by
  intro cells
  induction cells with
  | nil => intro i m _; rfl
  | cons c cs ih =>
    intro i m h
    cases c with
    | na => exact ih (i + 1) m (fun c' hc' => h c' (List.mem_cons_of_mem _ hc'))
    | n v => exact ih (i + 1) m (fun c' hc' => h c' (List.mem_cons_of_mem _ hc'))
    | s v =>
      have hv : containsSlash v = false := h (Cell.s v) (List.mem_cons_self _ _)
      rw [show buildAux i (Cell.s v :: cs) m =
          buildAux (i + 1) cs (if containsSlash v then upsertDC m v (i, i + 1) else m)
          from rfl, hv]
      exact ih (i + 1) m (fun c' hc' => h c' (List.mem_cons_of_mem _ hc'))

/-- Claim C4 counterexample: with the expected header rows absent (here a
template with no rows at all), the Roster Indexer does not fail softly
with an empty DateColumnMap — `df.iloc[3]` raises `IndexError`, the
`except` clause of `read_template_file` re-raises it, and the run aborts
without producing output. -/
theorem claim_C4_counterexample :
    read_template_file ([] : Table) =
      Except.error "IndexError: single positional indexer is out-of-bounds" ∧
    read_template_file ([] : Table) ≠
      Except.ok (([] : Table), ([] : DCMap)) := by
  constructor
  · rfl
  · intro h
    exact Except.noConfusion
      ((show read_template_file ([] : Table) =
          Except.error "IndexError: single positional indexer is out-of-bounds"
        from rfl).symm.trans h)

/-- Claim C4 amended: the recoverable per-record conditions are handled
softly — an unparseable student identifier drops only that form record, a
form date missing from the DateColumnMap skips only that record, a
student id with no matching roster row skips only that record, and a
header row 3 that is present but malformed (no date-like cells) yields an
empty DateColumnMap with the run continuing; but when the expected header
rows are absent (fewer than 5 rows), `read_template_file` raises and the
run aborts instead of returning an empty map. -/
theorem claim_C4_amended :
    (∀ df : Table, df.length < 5 →
        read_template_file df =
          Except.error "IndexError: single positional indexer is out-of-bounds") ∧
    (∀ (df : Table) (r3 r4 : List Cell), df.get? 3 = some r3 → df.get? 4 = some r4 →
        (∀ c ∈ r3, isDateCell c = false) →
        read_template_file df = Except.ok (df, ([] : DCMap))) ∧
    (∀ (r : RawFormRow) (rest : List RawFormRow), extract_student_id r.email = none →
        read_forms_data (r :: rest) = read_forms_data rest) ∧
    (∀ (t : Table) (rec : FormRecord) (rest : List FormRecord) (dcm : DCMap)
        (st : String) (du : Nat), lookupDC dcm rec.date = none →
        applyResponses (rec :: rest) t dcm st du = applyResponses rest t dcm st du) ∧
    (∀ (t : Table) (rec : FormRecord) (rest : List FormRecord) (dcm : DCMap)
        (st : String) (du : Nat) (sid : String),
        canonicalFormId rec.studentId = some sid → findMatchRow t sid = none →
        applyResponses (rec :: rest) t dcm st du = applyResponses rest t dcm st du) := by
  refine ⟨?_, ?_, ?_, ?_, ?_⟩
  · intro df h
    unfold read_template_file
    cases h3 : df.get? 3 with
    | none => rfl
    | some r3 =>
      cases h4 : df.get? 4 with
      | none => rfl
      | some r4 =>
        obtain ⟨hlt, -⟩ := List.get?_eq_some.mp h4
        omega
  · intro df r3 r4 h3 h4 hnd
    unfold read_template_file
    rw [h3, h4]
    show Except.ok (df, buildAux 0 r3 []) = Except.ok (df, ([] : DCMap))
    rw [buildAux_no_dates r3 0 [] hnd]
  · intro r rest h
    simp [read_forms_data, List.filterMap_cons, h]
  · intro t rec rest dcm st du h
    have hskip : applyRecord t rec dcm st du = t := by
      unfold applyRecord
      cases hc : canonicalFormId rec.studentId with
      | none => rfl
      | some sid =>
        rw [h]
    show applyResponses rest (applyRecord t rec dcm st du) dcm st du =
      applyResponses rest t dcm st du
    rw [hskip]
  · intro t rec rest dcm st du sid hc hf
    have hskip : applyRecord t rec dcm st du = t := by
      unfold applyRecord
      simp only [hc]
      cases hl : lookupDC dcm rec.date with
      | none => rfl
      | some p =>
        obtain ⟨cc, mc⟩ := p
        simp only [hf]
    show applyResponses rest (applyRecord t rec dcm st du) dcm st du =
      applyResponses rest t dcm st du
    rw [hskip]

theorem claim_C4_witness :
    read_template_file ([[Cell.na], [], [], [Cell.s "x"], []] : Table) =
      Except.ok (([[Cell.na], [], [], [Cell.s "x"], []] : Table), ([] : DCMap)) ∧
    read_forms_data
      [{ email := some "abc@x.com", startDay := 26, startMonth := 11,
         completion := 0 }] = [] ∧
    applyResponses [{ studentId := "7", date := "26/11", completion := 0 }]
      [] [] "13:00" 180 = applyResponses [] [] [] "13:00" 180 ∧
    applyResponses [{ studentId := "7", date := "26/11", completion := 0 }]
      [[Cell.n 9]] [("26/11", 1, 2)] "13:00" 180 =
      applyResponses [] [[Cell.n 9]] [("26/11", 1, 2)] "13:00" 180 := by
  refine ⟨?_, ?_, ?_, ?_⟩
  · exact claim_C4_amended.2.1 _ [Cell.s "x"] [] rfl rfl (by decide)
  · exact claim_C4_amended.2.2.1 _ [] (by decide)
  · exact claim_C4_amended.2.2.2.1 [] _ [] [] "13:00" 180 rfl
  · exact claim_C4_amended.2.2.2.2 _ _ [] _ "13:00" 180 "7" rfl rfl

/- ---------------------------------------------------------------------
Claim C3: the reconciler's two-phase invariant.
--------------------------------------------------------------------- -/

theorem datesInForms_mono (recs : List FormRecord) : ∀ (acc : List String) (d : String),
    d ∈ acc →
    d ∈ List.foldl (fun acc r => if r.date ∈ acc then acc else acc ++ [r.date]) acc recs := by
  induction recs with
  | nil => intro acc d h; exact h
  | cons r rs ih =>
    intro acc d h
    rw [List.foldl_cons]
    apply ih
    show d ∈ (if r.date ∈ acc then acc else acc ++ [r.date])
    by_cases hr : r.date ∈ acc
    · rw [if_pos hr]; exact h
    · rw [if_neg hr]; exact List.mem_append_left _ h

theorem mem_datesInForms (recs : List FormRecord) (rec : FormRecord)
    (h : rec ∈ recs) : rec.date ∈ datesInForms recs := by
  rw [datesInForms]
  suffices hgen : ∀ (rs : List FormRecord) (acc : List String), rec ∈ rs →
      rec.date ∈ List.foldl (fun acc r => if r.date ∈ acc then acc else acc ++ [r.date]) acc rs by
    exact hgen recs [] h
  intro rs
  induction rs with
  | nil => intro acc h'; cases h'
  | cons r0 rs' ih =>
    intro acc h'
    rcases List.mem_cons.mp h' with rfl | hmem
    · rw [List.foldl_cons]
      apply datesInForms_mono
      show rec.date ∈ (if rec.date ∈ acc then acc else acc ++ [rec.date])
      by_cases hr : rec.date ∈ acc
      · rw [if_pos hr]; exact hr
      · rw [if_neg hr]
        exact List.mem_append_right _ (List.mem_singleton.mpr rfl)
    · rw [List.foldl_cons]
      exact ih _ hmem

theorem calculate_attendance_code (tod : Nat) (st : String) (du : Nat)
    (c : String) (mi : Int)
    (h : calculate_attendance tod st du = some (c, mi)) : c = "Y" ∨ c = "N" := by
  cases hp : parseStartTime st with
  | none =>
    unfold calculate_attendance at h
    rw [hp] at h
    exact Option.noConfusion h
  | some p =>
    obtain ⟨sh, sm⟩ := p
    rw [calculate_attendance_eq tod st du sh sm hp] at h
    split_ifs at h with h1 h2 h3
    · injection h with h'
      injection h' with hc hm
      exact Or.inl hc.symm
    · injection h with h'
      injection h' with hc hm
      exact Or.inr hc.symm
    · injection h with h'
      injection h' with hc hm
      exact Or.inl hc.symm

theorem get?_setNth_cases (r : List Cell) (j : Nat) (v : Cell) (k : Nat) :
    (setNth r j v).get? k = r.get? k ∨
    (k = j ∧ (setNth r j v).get? k = some v) := by
  rw [get?_setNth]
  by_cases h : k = j ∧ j < r.length
  · exact Or.inr ⟨h.1, by rw [if_pos h]⟩
  · rw [if_neg h]
    exact Or.inl rfl

theorem rowPair_cases (r : List Cell) (cc mc : Nat) (A B : Cell) (k : Nat) :
    (setNth (setNth r cc A) mc B).get? k = r.get? k ∨
    (k = cc ∧ (setNth (setNth r cc A) mc B).get? k = some A) ∨
    (k = mc ∧ (setNth (setNth r cc A) mc B).get? k = some B) := by
  rcases get?_setNth_cases (setNth r cc A) mc B k with h1 | h1
  · rcases get?_setNth_cases r cc A k with h2 | h2
    · exact Or.inl (h1.trans h2)
    · exact Or.inr (Or.inl ⟨h2.1, h1.trans h2.2⟩)
  · exact Or.inr (Or.inr h1)

theorem getTableCell?_setPair (t : Table) (i cc mc : Nat) (A B : Cell) (j k : Nat) :
    getTableCell? (setTableCell (setTableCell t i cc A) i mc B) j k =
      getTableCell? t j k ∨
    (k = cc ∧ getTableCell? (setTableCell (setTableCell t i cc A) i mc B) j k = some A) ∨
    (k = mc ∧ getTableCell? (setTableCell (setTableCell t i cc A) i mc B) j k = some B) := by
  unfold getTableCell?
  by_cases hji : j = i
  · rw [hji, get?_setTableCell, if_pos rfl, get?_setTableCell, if_pos rfl]
    cases hrow : t.get? i with
    | none => left; rfl
    | some r =>
      simp only [Option.map_some', Option.some_bind]
      exact rowPair_cases r cc mc A B k
  · rw [get?_setTableCell, if_neg hji, get?_setTableCell, if_neg hji]
    exact Or.inl rfl

theorem getTableCell?_applyRecord (t : Table) (rec : FormRecord) (dcm : DCMap)
    (st : String) (du : Nat) (j k : Nat) :
    getTableCell? (applyRecord t rec dcm st du) j k = getTableCell? t j k ∨
    (∃ cc mc code minutes, lookupDC dcm rec.date = some (cc, mc) ∧
      calculate_attendance rec.completion st du = some (code, minutes) ∧
      ((k = cc ∧ getTableCell? (applyRecord t rec dcm st du) j k = some (Cell.s code)) ∨
        (k = mc ∧ getTableCell? (applyRecord t rec dcm st du) j k = some (Cell.n minutes)))) := by
  cases hci : canonicalFormId rec.studentId with
  | none =>
    have ht : applyRecord t rec dcm st du = t := by
      unfold applyRecord
      simp only [hci]
    rw [ht]
    exact Or.inl rfl
  | some sid =>
    cases hl : lookupDC dcm rec.date with
    | none =>
      have ht : applyRecord t rec dcm st du = t := by
        unfold applyRecord
        simp only [hci, hl]
      rw [ht]
      exact Or.inl rfl
    | some p =>
      obtain ⟨cc, mc⟩ := p
      cases hf : findMatchRow t sid with
      | none =>
        have ht : applyRecord t rec dcm st du = t := by
          unfold applyRecord
          simp only [hci, hl, hf]
        rw [ht]
        exact Or.inl rfl
      | some i =>
        cases hca : calculate_attendance rec.completion st du with
        | none =>
          have ht : applyRecord t rec dcm st du = t := by
            unfold applyRecord
            simp only [hci, hl, hf, hca]
          rw [ht]
          exact Or.inl rfl
        | some q =>
          obtain ⟨code, minutes⟩ := q
          have hA : applyRecord t rec dcm st du =
              setTableCell (setTableCell t i cc (Cell.s code)) i mc (Cell.n minutes) := by
            unfold applyRecord
            simp only [hci, hl, hf, hca]
          rw [hA]
          rcases getTableCell?_setPair t i cc mc (Cell.s code) (Cell.n minutes) j k
            with h | h | h
          · exact Or.inl h
          · exact Or.inr ⟨cc, mc, code, minutes, rfl, rfl, Or.inl h⟩
          · exact Or.inr ⟨cc, mc, code, minutes, rfl, rfl, Or.inr h⟩

theorem triState_applyRecord (t : Table) (rec : FormRecord) (dcm : DCMap)
    (st : String) (du : Nat) (dates : List String) (d : String) (cc : Nat)
    (hrd : rec.date ∈ dates)
    (hld : lookupDC dcm d = some (cc, cc + 1))
    (hdisj : ∀ d' cc' mc', d' ∈ dates → d' ≠ d → lookupDC dcm d' = some (cc', mc') →
      cc' ≠ cc ∧ mc' ≠ cc)
    (h : TriState t cc) : TriState (applyRecord t rec dcm st du) cc := by
  intro i h5 w hw
  rcases getTableCell?_applyRecord t rec dcm st du i cc with
    hcase | ⟨cc0, mc0, code, minutes, hl0, hca0, hcase⟩
  · exact h i h5 w (hcase ▸ hw)
  · rcases hcase with ⟨hkcc, hval⟩ | ⟨hkmc, hval⟩
    · have hw' : w = Cell.s code := (Option.some.inj (hval.symm.trans hw)).symm
      rcases calculate_attendance_code rec.completion st du code minutes hca0 with hY | hN
      · right; left; rw [hw', hY]
      · right; right; rw [hw', hN]
    · by_cases hrdd : rec.date = d
      · rw [hrdd, hld] at hl0
        have hp := Option.some.inj hl0
        have hmc0 : cc + 1 = mc0 := congrArg Prod.snd hp
        omega
      · obtain ⟨-, hmc0⟩ := hdisj rec.date cc0 mc0 hrd hrdd hl0
        exact absurd hkmc.symm hmc0

theorem triState_applyResponses (dcm : DCMap) (st : String) (du : Nat)
    (dates : List String) (d : String) (cc : Nat)
    (hld : lookupDC dcm d = some (cc, cc + 1))
    (hdisj : ∀ d' cc' mc', d' ∈ dates → d' ≠ d → lookupDC dcm d' = some (cc', mc') →
      cc' ≠ cc ∧ mc' ≠ cc) :
    ∀ (recs : List FormRecord) (t : Table), (∀ r ∈ recs, r.date ∈ dates) →
      TriState t cc → TriState (applyResponses recs t dcm st du) cc := by
  intro recs
  induction recs with
  | nil => intro t _ h; exact h
  | cons r rs ih =>
    intro t hmem h
    show TriState (applyResponses rs (applyRecord t r dcm st du) dcm st du) cc
    apply ih (applyRecord t r dcm st du)
      (fun r' hr' => hmem r' (List.mem_cons_of_mem _ hr'))
    exact triState_applyRecord t r dcm st du dates d cc
      (hmem r (List.mem_cons_self _ _)) hld hdisj h

theorem get?_markRowAbsent_precise (r : List Cell) (cc mc k : Nat) :
    (markRowAbsent r cc mc).get? k = r.get? k ∨
    (k = cc ∧ (markRowAbsent r cc mc).get? k = some (Cell.s "N")) ∨
    (k = mc ∧ (markRowAbsent r cc mc).get? k = some (Cell.n 0)) := by
  rw [markRowAbsent]
  by_cases h : r.get? cc = some (Cell.s "--")
  · rw [if_pos h]
    exact rowPair_cases r cc mc (Cell.s "N") (Cell.n 0) k
  · rw [if_neg h]
    exact Or.inl rfl

theorem triState_markDateAbsent (t : Table) (cc' mc' cc : Nat) (hmc : mc' ≠ cc)
    (h : TriState t cc) : TriState (markDateAbsent t cc' mc') cc := by
  intro i h5 w hw
  rw [markDateAbsent, getTableCell?, get?_markFrom] at hw
  cases hrow : t.get? i with
  | none =>
    rw [hrow] at hw
    exact absurd hw (by simp)
  | some r =>
    rw [hrow] at hw
    simp only [Option.map_some', Nat.zero_add, if_pos h5, Option.some_bind] at hw
    rcases get?_markRowAbsent_precise r cc' mc' cc with hcs | ⟨hkcc, hval⟩ | ⟨hkmc, hval⟩
    · apply h i h5 w
      have hr : r.get? cc = some w := hcs ▸ hw
      rw [getTableCell?, hrow]
      exact hr
    · right; right
      exact (Option.some.inj (hval.symm.trans hw)).symm
    · exact absurd hkmc.symm hmc

theorem triState_markAll (dcm : DCMap) (cc : Nat) : ∀ (ds : List String) (t : Table),
    (∀ d' cc' mc', d' ∈ ds → lookupDC dcm d' = some (cc', mc') → mc' ≠ cc) →
    TriState t cc → TriState (mark_absent_students t dcm ds) cc := by
  intro ds
  induction ds with
  | nil => intro t _ h; exact h
  | cons d0 ds' ih =>
    intro t hds h
    rw [markAll_cons]
    cases hl : lookupDC dcm d0 with
    | none => exact ih t (fun d' cc' mc' hd' => hds d' cc' mc' (List.mem_cons_of_mem _ hd')) h
    | some p =>
      obtain ⟨cc', mc'⟩ := p
      exact ih _ (fun d' cc'' mc'' hd' => hds d' cc'' mc'' (List.mem_cons_of_mem _ hd'))
        (triState_markDateAbsent t cc' mc' cc
          (hds d0 cc' mc' (List.mem_cons_self _ _) hl) h)

/-- Claim C3 counterexample: a roster cell in a processed date's code
column that initially holds an arbitrary non-sentinel value (here `"Z"`)
survives both phases untouched — after Phase A (the submitting student is
not on the roster) and Phase B (the cell is not the sentinel, so it is
not marked), the cell still holds `"Z"`, which is neither a computed
attendance code (`'Y'`/`'N'`) nor `'N'`; only the sentinel-freedom part
of the claim holds unconditionally. -/
theorem claim_C3_counterexample :
    getTableCell? (update_attendance_data
      [{ studentId := "99", date := "26/11", completion := 0 }]
      [[], [], [], [Cell.na, Cell.s "26/11", Cell.na], [],
       [Cell.n 7, Cell.s "Z", Cell.s "--"]]
      [("26/11", 1, 2)] "13:00" 180) 5 1 = some (Cell.s "Z") ∧
    Cell.s "Z" ≠ Cell.s "Y" ∧ Cell.s "Z" ≠ Cell.s "N" ∧
    Cell.s "Z" ≠ Cell.s "--" := by decide

/-- Claim C3 amended: after Phase A then Phase B, for every date label of
the form data present in the DateColumnMap, no roster row (index ≥ 5)
holds the sentinel in that date's code column — this part holds with no
assumptions; and when additionally every such code cell initially held
the sentinel, each entry's minutes column is its code column + 1, and
distinct processed dates use disjoint column pairs, every such cell ends
as a computed attendance code `'Y'` or as `'N'`. -/
theorem claim_C3_amended (recs : List FormRecord) (t : Table) (dcm : DCMap)
    (st : String) (du : Nat)
    (hpair : ∀ d cc mc, d ∈ datesInForms recs → lookupDC dcm d = some (cc, mc) →
      mc = cc + 1)
    (hdisj : ∀ d d' cc mc cc' mc', d ∈ datesInForms recs → d' ∈ datesInForms recs →
      d' ≠ d → lookupDC dcm d = some (cc, mc) → lookupDC dcm d' = some (cc', mc') →
      cc' ≠ cc ∧ mc' ≠ cc)
    (hinit : ∀ d cc mc, d ∈ datesInForms recs → lookupDC dcm d = some (cc, mc) →
      ∀ i ∈ List.range t.length, 5 ≤ i → getTableCell? t i cc = some (Cell.s "--")) :
    ∀ d cc mc, d ∈ datesInForms recs → lookupDC dcm d = some (cc, mc) →
      ∀ i, 5 ≤ i →
        getTableCell? (update_attendance_data recs t dcm st du) i cc ≠
          some (Cell.s "--") ∧
        ∀ w, getTableCell? (update_attendance_data recs t dcm st du) i cc = some w →
          w = Cell.s "Y" ∨ w = Cell.s "N" := by
  intro d cc mc hd hld i h5
  have hmc : mc = cc + 1 := hpair d cc mc hd hld
  subst hmc
  have hfree : ColFree (update_attendance_data recs t dcm st du) cc :=
    colFree_markAll_mem (applyResponses recs t dcm st du) dcm (datesInForms recs)
      d cc (cc + 1) hd hld
  constructor
  · exact hfree i h5
  · intro w hw
    have hts0 : TriState t cc := by
      intro i' h5' w' hw'
      have hlen : i' < t.length := by
        cases hrow : t.get? i' with
        | none =>
          rw [getTableCell?, hrow] at hw'
          exact absurd hw' (by simp)
        | some r => exact (List.get?_eq_some.mp hrow).1
      have hcell := hinit d cc (cc + 1) hd hld i' (List.mem_range.mpr hlen) h5'
      left
      exact (Option.some.inj (hcell.symm.trans hw')).symm
    have hts1 : TriState (applyResponses recs t dcm st du) cc :=
      triState_applyResponses dcm st du (datesInForms recs) d cc hld
        (fun d' cc' mc' hd' hne hl' => hdisj d d' cc (cc + 1) cc' mc' hd hd' hne hld hl')
        recs t (fun r hr => mem_datesInForms recs r hr) hts0
    have hts2 : TriState (update_attendance_data recs t dcm st du) cc := by
      apply triState_markAll dcm cc (datesInForms recs)
        (applyResponses recs t dcm st du) ?_ hts1
      intro d' cc' mc' hd' hl'
      by_cases hdd : d' = d
      · rw [hdd, hld] at hl'
        have hp := Option.some.inj hl'
        have : cc + 1 = mc' := congrArg Prod.snd hp
        omega
      · exact (hdisj d d' cc (cc + 1) cc' mc' hd hd' hdd hld hl').2
    rcases hts2 i h5 w hw with hsent | hY | hN
    · exact absurd (hsent ▸ hw) (hfree i h5)
    · exact Or.inl hY
    · exact Or.inr hN

theorem claim_C3_witness :
    getTableCell? (update_attendance_data
      [{ studentId := "4186054", date := "26/11", completion := 47700 }]
      [[], [], [], [Cell.na, Cell.s "26/11", Cell.na], [],
       [Cell.n 4186054, Cell.s "--", Cell.s "--"],
       [Cell.n 3992383, Cell.s "--", Cell.s "--"]]
      [("26/11", 1, 2)] "13:00" 180) 5 1 ≠ some (Cell.s "--") ∧
    (Cell.s "Y" = Cell.s "Y" ∨ Cell.s "Y" = Cell.s "N") := by
  have h := claim_C3_amended
    [{ studentId := "4186054", date := "26/11", completion := 47700 }]
    [[], [], [], [Cell.na, Cell.s "26/11", Cell.na], [],
     [Cell.n 4186054, Cell.s "--", Cell.s "--"],
     [Cell.n 3992383, Cell.s "--", Cell.s "--"]]
    [("26/11", 1, 2)] "13:00" 180
    (by
      intro d cc mc hd hl
      rw [show datesInForms
          [{ studentId := "4186054", date := "26/11", completion := 47700 }] =
          ["26/11"] from rfl] at hd
      obtain rfl := List.mem_singleton.mp hd
      rw [show lookupDC [("26/11", 1, 2)] "26/11" = some (1, 2) from rfl] at hl
      have hp := Option.some.inj hl
      have h1 : 1 = cc := congrArg Prod.fst hp
      have h2 : 2 = mc := congrArg Prod.snd hp
      omega)
    (by
      intro d d' cc mc cc' mc' hd hd' hne hl hl'
      rw [show datesInForms
          [{ studentId := "4186054", date := "26/11", completion := 47700 }] =
          ["26/11"] from rfl] at hd hd'
      obtain rfl := List.mem_singleton.mp hd
      obtain rfl := List.mem_singleton.mp hd'
      exact absurd rfl hne)
    (by
      intro d cc mc hd hl i hi h5i
      rw [show datesInForms
          [{ studentId := "4186054", date := "26/11", completion := 47700 }] =
          ["26/11"] from rfl] at hd
      obtain rfl := List.mem_singleton.mp hd
      rw [show lookupDC [("26/11", 1, 2)] "26/11" = some (1, 2) from rfl] at hl
      have hp := Option.some.inj hl
      have h1 : 1 = cc := congrArg Prod.fst hp
      have hcc : cc = 1 := h1.symm
      subst hcc
      have hi7 : i < 7 := List.mem_range.mp hi
      interval_cases i <;> decide)
    "26/11" 1 2 (by decide) rfl 5 (by decide)
  exact ⟨h.1, h.2 (Cell.s "Y") (by decide)⟩

end AttendanceTransfer
